import Mathlib

/-!
Shallow embedding of the core of the `wroom` live audio looper
(`src/clip.rs`, `src/engine.rs`, `src/track.rs`, `src/audio.rs`) and proofs
about the claims of its specification.

Modelling conventions, used consistently below:

* Rust `f32`/`f64` values are modelled by the type `F`: a finite value is an
  exact rational (`F.fin q`); the non-finite IEEE values `inf`, `-inf` and
  `NaN` are separate constructors and propagate through the arithmetic the
  way IEEE 754 prescribes (in particular `0 * inf = NaN` and `x / 0` is a
  signed infinity for `x ≠ 0`, `NaN` for `x = 0`).  Rounding of finite
  results is not modelled: finite arithmetic is exact over `ℚ`, and decimal
  literals such as `0.001` are taken at face value.  The model has a single
  zero (no `-0.0`).
* Rust machine integers (`u16`, `u32`, `u64`) are modelled by `Nat`; where a
  subtraction or multiplication can wrap in a release build, the wrap is
  written out explicitly modulo `2^32` / `2^64` (see `wsub64`,
  `monitorBufferSize`).
* A Rust panic (a failed `assert_eq!`, an `unwrap` of an error) is modelled
  by `Option`/`Except` failure (`none` / `.error`).
* Structures owned by the OS (cpal devices and streams) are modelled by the
  data the program actually reads from them: a device carries the list of
  supported sample-rate ranges (cpal's `min_sample_rate()`/`max_sample_rate()`
  bounds, which cpal documents as inclusive), its supported buffer-size
  descriptors, and the channel count of its default config.
-/

set_option autoImplicit false
set_option maxRecDepth 4000

/-- Model of an `f32`/`f64` value: an exact finite rational, or one of the
IEEE non-finite values. -/
inductive F where
  | fin : ℚ → F
  | inf : F
  | ninf : F
  | nan : F
  deriving DecidableEq, Repr

/-- Integer-to-float conversion (`as f32` / `as f64`), idealized as exact. -/
def F.ofNat (n : Nat) : F := .fin n

/-- IEEE negation. -/
def F.neg : F → F
  | .fin a => .fin (-a)
  | .inf => .ninf
  | .ninf => .inf
  | .nan => .nan

/-- IEEE addition (exact on finite values, `inf + -inf = NaN`). -/
def F.add : F → F → F
  | .nan, _ => .nan
  | _, .nan => .nan
  | .fin a, .fin b => .fin (a + b)
  | .inf, .ninf => .nan
  | .ninf, .inf => .nan
  | .inf, _ => .inf
  | _, .inf => .inf
  | .ninf, _ => .ninf
  | _, .ninf => .ninf

/-- IEEE subtraction, `a - b = a + (-b)`. -/
def F.sub (a b : F) : F := a.add b.neg

/-- IEEE multiplication (exact on finite values, `0 * ±inf = NaN`). -/
def F.mul : F → F → F
  | .nan, _ => .nan
  | _, .nan => .nan
  | .fin a, .fin b => .fin (a * b)
  | .fin a, .inf => if a = 0 then .nan else if 0 < a then .inf else .ninf
  | .inf, .fin a => if a = 0 then .nan else if 0 < a then .inf else .ninf
  | .fin a, .ninf => if a = 0 then .nan else if 0 < a then .ninf else .inf
  | .ninf, .fin a => if a = 0 then .nan else if 0 < a then .ninf else .inf
  | .inf, .inf => .inf
  | .inf, .ninf => .ninf
  | .ninf, .inf => .ninf
  | .ninf, .ninf => .inf

/-- IEEE division: exact on finite values with non-zero divisor; `x / 0` is
a signed infinity for `x ≠ 0` and `NaN` for `0 / 0`. -/
def F.div : F → F → F
  | .nan, _ => .nan
  | _, .nan => .nan
  | .fin a, .fin b =>
      if b = 0 then (if a = 0 then .nan else if 0 < a then .inf else .ninf)
      else .fin (a / b)
  | .fin _, .inf => .fin 0
  | .fin _, .ninf => .fin 0
  | .inf, .fin b => if b < 0 then .ninf else .inf
  | .ninf, .fin b => if b < 0 then .inf else .ninf
  | _, _ => .nan

/-- Truncation toward zero of a rational, as used by Rust's float `%`. -/
def ratTrunc (q : ℚ) : ℤ := if 0 ≤ q then ⌊q⌋ else ⌈q⌉

/-- Rust's `f32` remainder operator `%`: `a - b * trunc (a / b)`, with the
IEEE special cases (`inf % b = NaN`, `a % 0 = NaN`, `a % ±inf = a`). -/
def F.fmod : F → F → F
  | .nan, _ => .nan
  | _, .nan => .nan
  | .inf, _ => .nan
  | .ninf, _ => .nan
  | .fin a, .inf => .fin a
  | .fin a, .ninf => .fin a
  | .fin a, .fin b => if b = 0 then .nan else .fin (a - b * ratTrunc (a / b))

/-- IEEE `<` as a boolean: any comparison involving `NaN` is `false`. -/
def F.lt : F → F → Bool
  | .nan, _ => false
  | _, .nan => false
  | .inf, _ => false
  | _, .ninf => false
  | .ninf, _ => true
  | _, .inf => true
  | .fin a, .fin b => decide (a < b)

/-- IEEE `≤` as a boolean: any comparison involving `NaN` is `false`. -/
def F.le : F → F → Bool
  | .nan, _ => false
  | _, .nan => false
  | .ninf, _ => true
  | _, .inf => true
  | .inf, _ => false
  | _, .ninf => false
  | .fin a, .fin b => decide (a ≤ b)

/-- Wrapping `u64` subtraction `a - b` (release-build semantics); valid for
`a, b < 2^64`.  In a debug build the underflowing case panics instead. -/
def wsub64 (a b : Nat) : Nat := (a + 2 ^ 64 - b) % 2 ^ 64

/-- `Clip` from `src/clip.rs`: channel count (`u16`), sample rate, and the
interleaved sample buffer (`Arc<[f32]>`). -/
structure Clip where
  channels : Nat
  sampleRate : Nat
  samples : List F
  deriving DecidableEq, Repr

/-- `Clip::frame_count`: `samples.len() / channels` (u64 division; the Rust
code panics when `channels = 0`, where Lean's `Nat` division returns `0`). -/
def Clip.frameCount (c : Clip) : Nat := c.samples.length / c.channels

/-- The fade window used by `Clip::fade_factor`:
`frame_count * channels / 1000` (a count of *frames*, although it is
computed from the interleaved sample count). -/
def Clip.fadeSamples (c : Clip) : Nat := c.frameCount * c.channels / 1000

/-- `Clip::fade_factor`.  The end-of-buffer branch computes the `u64`
subtractions `frame_count - fade_samples` and `frame_count - index`, which
wrap in a release build (`wsub64`) and panic in a debug build when the
subtrahend is larger. -/
def Clip.fadeFactor (c : Clip) (index : Nat) : F :=
  if index < c.frameCount * c.channels / 1000 then
    F.div (F.ofNat index) (F.ofNat (c.frameCount * c.channels / 1000))
  else if wsub64 c.frameCount (c.frameCount * c.channels / 1000) < index then
    F.div (F.ofNat (wsub64 c.frameCount index))
      (F.ofNat (c.frameCount * c.channels / 1000))
  else
    F.fin 1

/-- `Clip::sample`: the stored sample at the flattened buffer index
`index as usize * self.channels as usize + channel as usize` — computed in
`usize`, so the product and the sum wrap modulo `2^64` in a release build
(a debug build panics on the overflow), and an index that wraps can alias
back into the buffer — with `0.0` substituted when the wrapped index lands
outside the buffer, multiplied by the fade factor of the frame index. -/
def Clip.sample (c : Clip) (index channel : Nat) : F :=
  F.mul ((c.samples.get? ((index * c.channels % 2 ^ 64 + channel) % 2 ^ 64)).getD (F.fin 0))
    (c.fadeFactor index)

/-- `Clip::add`.  The source `assert_eq!(self.channels, other.channels)`
panics on mismatched channel counts; the panic is modelled as `none`.  The
sample-wise sum runs over `zip`, i.e. up to the shorter buffer. -/
def Clip.add (a other : Clip) (volume : F) : Option Clip :=
  if a.channels = other.channels then
    some { channels := a.channels
           sampleRate := a.sampleRate
           samples := List.zipWith (fun s o => F.add s (F.mul o volume))
             a.samples other.samples }
  else
    none

/-- `Clip::resample`: `new_frame_count = frame_count * target / source` in
`u64` arithmetic (the product wraps modulo `2^64` in a release build; the
source panics when the source rate is `0`, where `Nat` division returns
`0`).  Each new frame linearly interpolates between two consecutive source
frames; `point` is computed in `f64`, modelled exactly. -/
def Clip.resample (c : Clip) (sampleRate : Nat) : Clip :=
  let newFrameCount := c.frameCount * sampleRate % 2 ^ 64 / c.sampleRate
  { channels := c.channels
    sampleRate := sampleRate
    samples :=
      (List.range newFrameCount).flatMap fun frame =>
        let point : ℚ := (frame : ℚ) * c.sampleRate / sampleRate
        let index : Nat := (⌊point⌋).toNat
        let fraction : ℚ := point - index
        (List.range c.channels).map fun channel =>
          let s := c.sample index channel
          let ns := c.sample (index + 1) channel
          F.add s (F.mul (F.sub ns s) (F.fin fraction)) }

/-- `AudioEngine` from `src/engine.rs`: the atomic scalar fields read by the
render loop (the two hand-off cells for tracks and the recorded clip carry
no arithmetic content and are not needed by the claims below). -/
structure Engine where
  bpm : Nat
  beats : Nat
  sample : Nat
  sampleRate : Nat
  metronome : Bool
  deriving DecidableEq, Repr

/-- `AudioEngine::seconds`: `sample as f32 / sample_rate as f32`. -/
def Engine.seconds (e : Engine) : F :=
  F.div (F.ofNat e.sample) (F.ofNat e.sampleRate)

/-- `AudioEngine::beat`: `seconds() * bpm as f32 / 60.0`. -/
def Engine.beat (e : Engine) : F :=
  F.div (F.mul e.seconds (F.ofNat e.bpm)) (F.fin 60)

/-- `AudioEngine::is_on_beat`: `beat() % 1.0 < 0.001`. -/
def Engine.isOnBeat (e : Engine) : Bool :=
  F.lt (F.fmod e.beat (F.fin 1)) (F.fin (1 / 1000))

/-- `AudioEngine::should_loop`: `beat() >= beats() as f32`. -/
def Engine.shouldLoop (e : Engine) : Bool :=
  F.le (F.ofNat e.beats) e.beat

/-- The engine's clock fields as observed by the output callback when the
atomic `sample` counter holds `smp` and bpm/beats/sample-rate are fixed. -/
def engineAt (bpm beats sr smp : Nat) : Engine :=
  { bpm := bpm, beats := beats, sample := smp, sampleRate := sr
    metronome := false }

/-- State of the output render callback of `launch_stream`
(`src/audio.rs`): the engine's atomic sample position, the callback's local
per-frame `channel` counter and the length of the in-progress `recording`
buffer.  `loops` is instrumentation (not a source variable): it counts how
often the loop-reset branch has fired, so that "wraps exactly once" can be
stated. -/
structure RenderState where
  sample : Nat
  channel : Nat
  recLen : Nat
  loops : Nat
  deriving DecidableEq, Repr

/-- One iteration of the per-output-sample body of the output callback in
`launch_stream`, tracking the clock fields: increment `channel`; once it
reaches the input channel count, advance the engine sample position and
reset `channel`; push one feedback sample onto `recording`; then, if
`should_loop()`, reset the sample position to `0` and publish/clear the
recording.  The `is_on_beat()` track-snapshot adoption and the audio mixing
write to `*target` touch none of these fields and are omitted here. -/
def outStep (bpm beats sr c : Nat) (st : RenderState) : RenderState :=
  let ch := st.channel + 1
  let p := if ch = c then (st.sample + 1, 0) else (st.sample, ch)
  if (engineAt bpm beats sr p.1).shouldLoop then
    { sample := 0, channel := p.2, recLen := 0, loops := st.loops + 1 }
  else
    { sample := p.1, channel := p.2, recLen := st.recLen + 1, loops := st.loops }

/-- `simulate bpm beats sr c t`: the render state after `t` output samples,
starting from sample position `0`, channel counter `0`, empty recording. -/
def simulate (bpm beats sr c : Nat) : Nat → RenderState
  | 0 => { sample := 0, channel := 0, recLen := 0, loops := 0 }
  | t + 1 => outStep bpm beats sr c (simulate bpm beats sr c t)

/-- The loop length in frames that the spec attributes to the loop point:
`beats * 60 / bpm * sample_rate`, as a natural number. -/
def loopFrames (bpm beats sr : Nat) : Nat := beats * 60 * sr / bpm

/-- A cpal buffer-size descriptor (`SupportedBufferSize`): an inclusive
`min..=max` range or `Unknown`. -/
inductive BufSize where
  | range : Nat → Nat → BufSize
  | unknown : BufSize
  deriving DecidableEq, Repr

/-- A cpal device, reduced to the data `src/audio.rs` reads from it: the
`(min_sample_rate, max_sample_rate)` bounds of each supported config (both
inclusive, per cpal), the buffer-size descriptor of each supported config,
and the channel count of the device's default config. -/
structure Device where
  sampleRateRanges : List (Nat × Nat)
  bufferSizeRanges : List BufSize
  defaultConfigChannels : Nat
  deriving DecidableEq, Repr

/-- The fixed sample-rate preference ladder `SAMPLE_RATES`. -/
def SAMPLE_RATES : List Nat := [44100, 48000, 88200, 96000, 176400, 192000]

/-- The fixed buffer-size ladder `BUFFER_SIZES`. -/
def BUFFER_SIZES : List Nat :=
  [32, 64, 128, 256, 512, 1024, 2048, 4096, 8192, 16384]

/-- `sample_rate_supported`: the source converts each cpal config to the
half-open Rust range `min_sample_rate().0..max_sample_rate().0` (in
`input_sample_rates` / `output_sample_rates`) and asks `range.contains`,
so a rate counts as supported only when `min ≤ rate < max`. -/
def sampleRateSupported (ranges : List (Nat × Nat)) (rate : Nat) : Bool :=
  ranges.any fun p => decide (p.1 ≤ rate) && decide (rate < p.2)

/-- `buffer_size_supported`: inclusive on both ends, `Unknown` accepts
everything. -/
def bufferSizeSupported (sizes : List BufSize) (size : Nat) : Bool :=
  sizes.any fun s =>
    match s with
    | .range lo hi => decide (lo ≤ size) && decide (size ≤ hi)
    | .unknown => true

/-- Insertion of a value into a sorted `List Nat`; `sortNat` below models
`Vec::sort` extensionally (equal `Nat`s are indistinguishable, so
stability is irrelevant). -/
def insertSorted (x : Nat) : List Nat → List Nat
  | [] => [x]
  | y :: t => if x ≤ y then x :: y :: t else y :: insertSorted x t

/-- Extensional model of `Vec::sort` on `Nat`s. -/
def sortNat : List Nat → List Nat
  | [] => []
  | x :: t => insertSorted x (sortNat t)

/-- `Vec::dedup`: removes consecutive duplicates. -/
def dedupAdj : List Nat → List Nat
  | [] => []
  | [a] => [a]
  | a :: b :: t => if a = b then dedupAdj (b :: t) else a :: dedupAdj (b :: t)

/-- `sample_rates` (`src/audio.rs`): the ladder values supported by the
selected devices (by both when both are selected), sorted and deduped. -/
def sampleRatesFn (input output : Option Device) : List Nat :=
  let rates :=
    match input, output with
    | some i, some o =>
        SAMPLE_RATES.filter fun r =>
          sampleRateSupported i.sampleRateRanges r &&
            sampleRateSupported o.sampleRateRanges r
    | some i, none =>
        SAMPLE_RATES.filter fun r => sampleRateSupported i.sampleRateRanges r
    | none, some o =>
        SAMPLE_RATES.filter fun r => sampleRateSupported o.sampleRateRanges r
    | none, none => []
  dedupAdj (sortNat rates)

/-- `buffer_sizes` (`src/audio.rs`): same pattern over the buffer-size
ladder. -/
def bufferSizesFn (input output : Option Device) : List Nat :=
  let sizes :=
    match input, output with
    | some i, some o =>
        BUFFER_SIZES.filter fun b =>
          bufferSizeSupported i.bufferSizeRanges b &&
            bufferSizeSupported o.bufferSizeRanges b
    | some i, none =>
        BUFFER_SIZES.filter fun b => bufferSizeSupported i.bufferSizeRanges b
    | none, some o =>
        BUFFER_SIZES.filter fun b => bufferSizeSupported o.bufferSizeRanges b
    | none, none => []
  dedupAdj (sortNat sizes)

/-- `AudioSettings` (`src/audio.rs`), minus the cpal host handle (the host
only feeds `query_devices`, which is outside the claims below). -/
structure AudioSettings where
  inputDevices : List Device
  outputDevices : List Device
  inputDevice : Option Nat
  outputDevice : Option Nat
  sampleRates : List Nat
  sampleRate : Option Nat
  bufferSizes : List Nat
  bufferSize : Option Nat
  delay : Nat
  deriving DecidableEq, Repr

/-- `AudioSettings::get_input_device`.  The source indexes
`input_devices[i]` (an out-of-range selection would panic); the model
returns `none` in that unreachable case. -/
def AudioSettings.getInputDevice (s : AudioSettings) : Option Device :=
  s.inputDevice.bind fun i => s.inputDevices.get? i

/-- `AudioSettings::get_output_device`. -/
def AudioSettings.getOutputDevice (s : AudioSettings) : Option Device :=
  s.outputDevice.bind fun i => s.outputDevices.get? i

/-- `AudioSettings::get_sample_rate`. -/
def AudioSettings.getSampleRate (s : AudioSettings) : Option Nat :=
  s.sampleRate.bind fun i => s.sampleRates.get? i

/-- The selection rule of `AudioSettings::query_default_sample_rate`: the
index of `48000` in the list if present, else index `0` if the list is
nonempty, else `none`. -/
def defaultSampleRateIndex (rates : List Nat) : Option Nat :=
  match rates.findIdx? fun r => r = 48000 with
  | some i => some i
  | none => if rates.isEmpty then none else some 0

/-- The selection rule of `AudioSettings::query_default_buffer_size`:
index of `128`, else index `0`, else `none`. -/
def defaultBufferSizeIndex (sizes : List Nat) : Option Nat :=
  match sizes.findIdx? fun b => b = 128 with
  | some i => some i
  | none => if sizes.isEmpty then none else some 0

/-- `AudioSettings::query_default_sample_rate` as a state transform. -/
def AudioSettings.queryDefaultSampleRate (s : AudioSettings) : AudioSettings :=
  { s with sampleRate := defaultSampleRateIndex s.sampleRates }

/-- `AudioSettings::query_sample_rates`: recompute the negotiated
sample-rate list from the current device selection, then the default
selection. -/
def AudioSettings.querySampleRates (s : AudioSettings) : AudioSettings :=
  let s := { s with sampleRates := sampleRatesFn s.getInputDevice s.getOutputDevice }
  s.queryDefaultSampleRate

/-- `AudioSettings::query_default_buffer_size` as a state transform. -/
def AudioSettings.queryDefaultBufferSize (s : AudioSettings) : AudioSettings :=
  { s with bufferSize := defaultBufferSizeIndex s.bufferSizes }

/-- `AudioSettings::query_buffer_sizes`. -/
def AudioSettings.queryBufferSizes (s : AudioSettings) : AudioSettings :=
  let s := { s with bufferSizes := bufferSizesFn s.getInputDevice s.getOutputDevice }
  s.queryDefaultBufferSize

/-- `AudioSettings::rotate_input_device`: rotate the selection with
`rem_euclid` (modelled by `Int.emod`, which agrees with `rem_euclid` for a
positive modulus; the source panics on a zero modulus, i.e. when a
selection exists for an empty device list), then `query_sample_rates()` —
and nothing else. -/
def AudioSettings.rotateInputDevice (s : AudioSettings) (offset : Int) : AudioSettings :=
  let s :=
    match s.inputDevice with
    | some i =>
        let j := (((i : Int) + offset).emod (s.inputDevices.length : Int)).toNat
        { s with inputDevice := some j }
    | none =>
        if s.inputDevices.isEmpty then s else { s with inputDevice := some 0 }
  s.querySampleRates

/-- `AudioSettings::rotate_output_device`: same shape as the input-device
rotation. -/
def AudioSettings.rotateOutputDevice (s : AudioSettings) (offset : Int) : AudioSettings :=
  let s :=
    match s.outputDevice with
    | some i =>
        let j := (((i : Int) + offset).emod (s.outputDevices.length : Int)).toNat
        { s with outputDevice := some j }
    | none =>
        if s.outputDevices.isEmpty then s else { s with outputDevice := some 0 }
  s.querySampleRates

/-- A cpal `BufferSize` argument: `Default` or `Fixed(frames)`. -/
inductive BufferSel where
  | default : BufferSel
  | fixed : Nat → BufferSel
  deriving DecidableEq, Repr

/-- `AudioSettings::get_buffer_size`:
`Some(BufferSize::Fixed(self.buffer_sizes[self.buffer_size?]))` (the model
returns `none` where an out-of-range index would panic). -/
def AudioSettings.getBufferSize (s : AudioSettings) : Option BufferSel :=
  s.bufferSize.bind fun i => (s.bufferSizes.get? i).map .fixed

/-- The failure cases of `AudioSettings::launch_stream`.  The source
returns `anyhow` errors with the messages `"no input device"`,
`"no output device"`, `"no sample rate"` and
`"input and output channels must match"`; the spec names them
`NoInputDevice`, `NoOutputDevice`, `NoSampleRate` and `ChannelMismatch`. -/
inductive LaunchError where
  | noInputDevice : LaunchError
  | noOutputDevice : LaunchError
  | noSampleRate : LaunchError
  | channelMismatch : LaunchError
  deriving DecidableEq, Repr

/-- The monitoring ring-buffer prefill count computed in `launch_stream`:
`input_channels as u32 * sample_rate.0 * self.delay / 1000`, with the `u32`
products wrapping in a release build. -/
def monitorBufferSize (channels sampleRate delay : Nat) : Nat :=
  channels * sampleRate % 2 ^ 32 * delay % 2 ^ 32 / 1000

/-- What a successful `launch_stream` builds, stripped of the OS handles:
the negotiated configuration of the two streams, the capacity the
`HeapRb::new` call receives, and how many silence samples are pushed into
it before the streams start. -/
structure StreamsOk where
  inputChannels : Nat
  outputChannels : Nat
  sampleRate : Nat
  bufferSel : BufferSel
  ringCapacity : Nat
  prefillCount : Nat
  deriving DecidableEq, Repr

/-- `AudioSettings::launch_stream`, up to the OS calls: the early-return
error ladder, the channel negotiation from the devices' default configs,
and the ring-buffer sizing.  `build_input_stream` / `build_output_stream` /
`play` failures (`StreamBuildFailure`) depend on the OS and are outside the
model. -/
def AudioSettings.launchStream (s : AudioSettings) : Except LaunchError StreamsOk :=
  match s.getInputDevice with
  | none => .error .noInputDevice
  | some inputDevice =>
    match s.getOutputDevice with
    | none => .error .noOutputDevice
    | some outputDevice =>
      match s.getSampleRate with
      | none => .error .noSampleRate
      | some sampleRate =>
        let bufferSel := s.getBufferSize.getD .default
        let inputChannels := inputDevice.defaultConfigChannels
        let outputChannels := outputDevice.defaultConfigChannels
        if inputChannels ≠ outputChannels then
          .error .channelMismatch
        else
          let n := monitorBufferSize inputChannels sampleRate s.delay
          .ok { inputChannels := inputChannels
                outputChannels := outputChannels
                sampleRate := sampleRate
                bufferSel := bufferSel
                ringCapacity := n * 2
                prefillCount := n }

/-- The SPSC monitoring ring buffer (`ringbuf::HeapRb`), as the bounded
FIFO queue the callbacks observe: a capacity and the queued values, oldest
first. -/
structure HeapRb where
  cap : Nat
  data : List F
  deriving DecidableEq, Repr

/-- A producer push: fails (returns `none`, modelling `Err`) when the
buffer is full. -/
def HeapRb.push (rb : HeapRb) (x : F) : Option HeapRb :=
  if rb.data.length < rb.cap then some { rb with data := rb.data ++ [x] } else none

/-- A consumer pop: the oldest value, if any. -/
def HeapRb.pop (rb : HeapRb) : Option F × HeapRb :=
  match rb.data with
  | [] => (none, rb)
  | x :: t => (some x, { rb with data := t })

/-- The prefill loop of `launch_stream`:
`for _ in 0..buffer_size { prod.push(0.0).unwrap(); }` — `n` pushes of
`0.0`, failing (`none`, the `unwrap` panic) if any push fails. -/
def pushZeros : Nat → HeapRb → Option HeapRb
  | 0, rb => some rb
  | n + 1, rb =>
    match rb.push (F.fin 0) with
    | some rb' => pushZeros n rb'
    | none => none

/-- `Audio` (`src/audio.rs`): the settings, the two stream slots and the
last-error slot.  A live OS stream is represented by the `StreamsOk` data
that configured it. -/
structure Audio where
  settings : AudioSettings
  inputStream : Option StreamsOk
  outputStream : Option StreamsOk
  error : Option LaunchError
  deriving DecidableEq, Repr

/-- `Audio::launch_streams`: on success replace both stream slots and
clear the error; on failure store the error and leave both stream slots
untouched. -/
def Audio.launchStreams (a : Audio) : Audio :=
  match a.settings.launchStream with
  | .ok r => { a with inputStream := some r, outputStream := some r, error := none }
  | .error e => { a with error := some e }

/-- The beat position as an exact rational:
`sample / sample_rate * bpm / 60`.  Used to state what `is_on_beat` and
`should_loop` compute when the sample rate is non-zero. -/
def beatQ (e : Engine) : ℚ := (e.sample : ℚ) / e.sampleRate * e.bpm / 60

/-- Spec-side rate-support test, for comparison with the source's
`sample_rate_supported`: the spec's "supported by both devices" reads a
cpal range with its documented inclusive bounds, `min ≤ rate ≤ max`. -/
def specRateSupported (ranges : List (Nat × Nat)) (rate : Nat) : Bool :=
  ranges.any fun p => decide (p.1 ≤ rate) && decide (rate ≤ p.2)

/-- Spec-side negotiated list, for comparison with `sampleRatesFn`: the
preference-ladder members supported (inclusively) by both devices. -/
def specNegotiatedRates (input output : Device) : List Nat :=
  SAMPLE_RATES.filter fun r =>
    specRateSupported input.sampleRateRanges r &&
      specRateSupported output.sampleRateRanges r

/-! Concrete instances used by counterexamples and witnesses. -/

/-- A 10-sample mono clip whose sixth stored sample is `1.0`. -/
def clipChanAlias : Clip :=
  { channels := 1, sampleRate := 48000
    samples := List.replicate 5 (F.fin 0) ++ F.fin 1 :: List.replicate 4 (F.fin 0) }

/-- A stereo clip of 500 frames (1000 stored samples, all `1.0`) at
48 kHz: its code fade window is `1000 / 1000 = 1` frame, while a
1-millisecond fade at 48 kHz would be 48 frames. -/
def clipMsFade : Clip :=
  { channels := 2, sampleRate := 48000, samples := List.replicate 1000 (F.fin 1) }

/-- A mono clip of 2000 frames, all `1.0`: its fade window is 2 frames. -/
def clipRamp : Clip :=
  { channels := 1, sampleRate := 48000, samples := List.replicate 2000 (F.fin 1) }

/-- A mono one-frame clip. -/
def clipMono : Clip := { channels := 1, sampleRate := 48000, samples := [F.fin 1] }

/-- A stereo one-frame clip. -/
def clipStereo : Clip :=
  { channels := 2, sampleRate := 48000, samples := [F.fin 1, F.fin 2] }

/-- Two mono clips of equal length, for the `add` witness. -/
def clipAddA : Clip := { channels := 1, sampleRate := 8, samples := [F.fin 1, F.fin 2] }

/-- Second operand for the `add` witness. -/
def clipAddB : Clip := { channels := 1, sampleRate := 8, samples := [F.fin 3, F.fin 4] }

/-- An 8-frame mono clip at a 4 Hz sample rate, for the resample witness. -/
def clipEight : Clip :=
  { channels := 1, sampleRate := 4, samples := List.replicate 8 (F.fin 0) }

/-- An engine state whose beat position is `9.9995`: `0.0005` beats before
beat 10, i.e. within `0.001` of an integer beat but with fractional part
`> 0.999`. -/
def engineNearBeat : Engine := engineAt 60 4 10000 99995

/-- A device accepting any of the ladder rates (range `40000..200000`,
which the half-open conversion still satisfies) and any buffer size. -/
def devAnyBuf : Device :=
  { sampleRateRanges := [(40000, 200000)], bufferSizeRanges := [.unknown]
    defaultConfigChannels := 2 }

/-- Like `devAnyBuf` but only buffer sizes `256..=512`. -/
def devSmallBuf : Device :=
  { sampleRateRanges := [(40000, 200000)]
    bufferSizeRanges := [.range 256 512], defaultConfigChannels := 2 }

/-- Settings with both selections on `devAnyBuf` and all derived lists
freshly computed for that pair, as `query_default_devices` would leave
them; a second input device `devSmallBuf` is available for rotation. -/
def settingsPreRotate : AudioSettings :=
  { inputDevices := [devAnyBuf, devSmallBuf]
    outputDevices := [devAnyBuf]
    inputDevice := some 0
    outputDevice := some 0
    sampleRates := sampleRatesFn (some devAnyBuf) (some devAnyBuf)
    sampleRate := defaultSampleRateIndex (sampleRatesFn (some devAnyBuf) (some devAnyBuf))
    bufferSizes := bufferSizesFn (some devAnyBuf) (some devAnyBuf)
    bufferSize := defaultBufferSizeIndex (bufferSizesFn (some devAnyBuf) (some devAnyBuf))
    delay := 15 }

/-- Settings that launch successfully: one stereo device on each side,
48 kHz selected, no buffer-size selection, 15 ms feedback delay. -/
def settingsLaunchable : AudioSettings :=
  { inputDevices := [devAnyBuf], outputDevices := [devAnyBuf]
    inputDevice := some 0, outputDevice := some 0
    sampleRates := [48000], sampleRate := some 0
    bufferSizes := [], bufferSize := none, delay := 15 }

/-- What `settingsLaunchable.launchStream` builds: 2 channels at 48 kHz
with a 15 ms delay give a prefill of `2 * 48000 * 15 / 1000 = 1440`
samples and a ring capacity of `2880`. -/
def streamsLaunched : StreamsOk :=
  { inputChannels := 2, outputChannels := 2, sampleRate := 48000
    bufferSel := .default, ringCapacity := 2880, prefillCount := 1440 }

/-- An input device advertising exactly the rates 44100 and 48000 (each as
a cpal config with `min_sample_rate = max_sample_rate`). -/
def devIn4448 : Device :=
  { sampleRateRanges := [(44100, 44100), (48000, 48000)]
    bufferSizeRanges := [.unknown], defaultConfigChannels := 2 }

/-- An output device advertising exactly the rates 48000 and 96000. -/
def devOut4896 : Device :=
  { sampleRateRanges := [(48000, 48000), (96000, 96000)]
    bufferSizeRanges := [.unknown], defaultConfigChannels := 2 }

/-- An `Audio` value holding live streams but whose settings have lost the
input-device selection, so that a relaunch fails. -/
def audioNoInput : Audio :=
  { settings := { settingsLaunchable with inputDevice := none }
    inputStream := some streamsLaunched
    outputStream := some streamsLaunched
    error := none }

/-! Computation lemmas for the float model. -/

theorem F.mul_fin (a b : ℚ) : F.mul (F.fin a) (F.fin b) = F.fin (a * b) := rfl

theorem F.add_fin (a b : ℚ) : F.add (F.fin a) (F.fin b) = F.fin (a + b) := rfl

theorem F.le_fin (a b : ℚ) : F.le (F.fin a) (F.fin b) = decide (a ≤ b) := rfl

theorem F.lt_fin (a b : ℚ) : F.lt (F.fin a) (F.fin b) = decide (a < b) := rfl

theorem F.div_fin (a b : ℚ) (hb : b ≠ 0) :
    F.div (F.fin a) (F.fin b) = F.fin (a / b) := by
  simp [F.div, hb]

theorem F.fmod_fin (a b : ℚ) (hb : b ≠ 0) :
    F.fmod (F.fin a) (F.fin b) = F.fin (a - b * ratTrunc (a / b)) := by
  simp [F.fmod, hb]

theorem ratTrunc_of_nonneg {q : ℚ} (h : 0 ≤ q) : ratTrunc q = ⌊q⌋ := if_pos h

theorem wsub64_of_le {a b : Nat} (hba : b ≤ a) (ha : a < 2 ^ 64) :
    wsub64 a b = a - b := by
  unfold wsub64
  have h1 : a + 2 ^ 64 - b = a - b + 2 ^ 64 := by omega
  rw [h1, Nat.add_mod_right, Nat.mod_eq_of_lt (by omega)]

/-- A successful `get?` bounds the index by the list length. -/
theorem lt_length_of_get? {α : Type} {l : List α} {n : Nat} {a : α}
    (h : l.get? n = some a) : n < l.length := by
  by_contra hge
  rw [List.get?_eq_none.mpr (by omega)] at h
  simp at h

/-- When the flattened buffer index stays below `2^64`, the `usize`
arithmetic in `Clip::sample` does not wrap and the read happens at
`index * channels + channel` itself. -/
theorem sample_eq_of_no_wrap (c : Clip) (index channel : Nat)
    (h : index * c.channels + channel < 2 ^ 64) :
    c.sample index channel =
      F.mul ((c.samples.get? (index * c.channels + channel)).getD (F.fin 0))
        (c.fadeFactor index) := by
  unfold Clip.sample
  rw [Nat.mod_eq_of_lt (show index * c.channels < 2 ^ 64 by omega),
    Nat.mod_eq_of_lt h]

/-! List helper lemmas. -/

theorem get?_replicate {α : Type} (x : α) :
    ∀ n k : Nat, k < n → (List.replicate n x).get? k = some x := by
  intro n
  induction n with
  | zero => intro k hk; omega
  | succ m ih =>
    intro k hk
    cases k with
    | zero => rfl
    | succ j => exact ih j (by omega)

theorem get?_zipWith {α β γ : Type} (f : α → β → γ) :
    ∀ (l₁ : List α) (l₂ : List β) (i : Nat) (x : α) (y : β),
      l₁.get? i = some x → l₂.get? i = some y →
      (List.zipWith f l₁ l₂).get? i = some (f x y) := by
  intro l₁
  induction l₁ with
  | nil => intro l₂ i x y h₁ _; simp at h₁
  | cons a t ih =>
    intro l₂ i x y h₁ h₂
    cases l₂ with
    | nil => simp at h₂
    | cons b t₂ =>
      cases i with
      | zero =>
        simp at h₁ h₂
        simp [h₁, h₂]
      | succ j =>
        simpa using ih t₂ j x y (by simpa using h₁) (by simpa using h₂)

theorem flatMap_length_const {α β : Type} (l : List α) (f : α → List β) (k : Nat)
    (h : ∀ a ∈ l, (f a).length = k) : (l.flatMap f).length = l.length * k := by
  induction l with
  | nil => simp
  | cons a t ih =>
    simp only [List.flatMap_cons, List.length_append, List.length_cons]
    rw [h a (by simp), ih fun b hb => h b (by simp [hb])]
    ring

/-- The fade factor is a finite value whenever the queried index does not
run past the frame count with a zero-length fade window (the one case
where the wrapped `u64` subtraction meets a division by zero). -/
theorem fadeFactor_fin (c : Clip) (index : Nat)
    (hguard : index ≤ c.frameCount ∨ 0 < c.fadeSamples)
    (hfc : c.frameCount < 2 ^ 64) :
    ∃ q : ℚ, c.fadeFactor index = F.fin q := by
  have hfs : c.fadeSamples = c.frameCount * c.channels / 1000 := rfl
  unfold Clip.fadeFactor
  by_cases h1 : index < c.frameCount * c.channels / 1000
  · have hpos : c.frameCount * c.channels / 1000 ≠ 0 := by omega
    refine ⟨(index : ℚ) / (c.frameCount * c.channels / 1000 : Nat), ?_⟩
    rw [if_pos h1]
    exact F.div_fin _ _ (by exact_mod_cast hpos)
  · rw [if_neg h1]
    by_cases h2 : wsub64 c.frameCount (c.frameCount * c.channels / 1000) < index
    · have hpos : c.frameCount * c.channels / 1000 ≠ 0 := by
        intro h0
        rw [h0] at h2
        rw [wsub64_of_le (Nat.zero_le _) hfc] at h2
        rcases hguard with hle | hlt
        · omega
        · rw [hfs] at hlt; omega
      refine ⟨(wsub64 c.frameCount index : ℚ) / (c.frameCount * c.channels / 1000 : Nat), ?_⟩
      rw [if_pos h2]
      exact F.div_fin _ _ (by exact_mod_cast hpos)
    · exact ⟨1, by rw [if_neg h2]⟩

/-- C2, counterexample.  The claim says a channel outside the clip's
channel range yields silence; in the code the flattened index
`index * channels + channel` of a too-large channel can land inside the
buffer and return another frame's stored sample.  `clipChanAlias` is mono
(channel range `{0}`) yet `sample 0 5` returns the stored sample of frame
5, which is `1.0`, not silence. -/
theorem sample_channel_alias_not_silent :
    clipChanAlias.channels = 1 ∧ clipChanAlias.frameCount = 10 ∧
    clipChanAlias.sample 0 5 = F.fin 1 ∧ F.fin (1 : ℚ) ≠ F.fin 0 := by
  with_unfolding_all decide

/-- C2, amended: `Clip.sample` is total in the model (release-build
semantics) and returns silence whenever the flattened index
`index * channels + channel` lies outside the buffer, provided (a) that
flattened index itself stays below `2^64` — at larger indices the `usize`
arithmetic wraps in a release build and the read aliases back into the
buffer (`sample_flat_index_wraps` below; a debug build panics on the
overflow) — and (b) the frame index does not run past `frame_count` while
the fade window is empty (fewer than 1000 stored samples), where the
wrapped `u64` subtraction divided by the zero window makes the result NaN
(and a debug build panics on that underflow). -/
theorem sample_out_of_buffer_silent (c : Clip) (index channel : Nat)
    (hflat : index * c.channels + channel < 2 ^ 64)
    (hout : c.samples.length ≤ index * c.channels + channel)
    (hguard : index ≤ c.frameCount ∨ 0 < c.fadeSamples)
    (hfc : c.frameCount < 2 ^ 64) :
    c.sample index channel = F.fin 0 := by
  have hnone : c.samples.get? (index * c.channels + channel) = none :=
    List.get?_eq_none.mpr hout
  obtain ⟨q, hq⟩ := fadeFactor_fin c index hguard hfc
  rw [sample_eq_of_no_wrap c index channel hflat, hnone, hq]
  show F.mul (F.fin 0) (F.fin q) = F.fin 0
  rw [F.mul_fin, zero_mul]

/-- C2 witness: querying the mono two-frame clip `clipAddA` at frame 2
(one past the last frame) yields silence. -/
theorem sample_out_of_buffer_silent_witness :
    clipAddA.samples.length ≤ 2 * clipAddA.channels + 0 ∧
    clipAddA.sample 2 0 = F.fin 0 :=
  ⟨by decide,
   sample_out_of_buffer_silent clipAddA 2 0 (by decide) (by decide) (.inl (by decide))
     (by decide)⟩

/-- At a flattened index past `2^64` the `usize` arithmetic of
`Clip::sample` wraps and aliases back into the buffer: on the mono
2000-frame clip `clipRamp` (every stored sample `1.0`, fade window 2
frames), `sample(2^64 - 1, 5)` reads the stored sample of frame 4 and
multiplies it by the wrapped end-fade factor
`(frame_count - index) mod 2^64 / fade_samples = 2001 / 2`, returning
`1000.5` rather than silence (a debug build panics on the overflow). -/
theorem sample_flat_index_wraps :
    clipRamp.sample (2 ^ 64 - 1) 5 = F.fin (2001 / 2) := by
  have hlen : clipRamp.samples.length = 2000 := by
    rw [show clipRamp.samples = List.replicate 2000 (F.fin 1) from rfl,
      List.length_replicate]
  have hfc : clipRamp.frameCount = 2000 := by
    unfold Clip.frameCount
    rw [hlen, show clipRamp.channels = 1 from rfl]
  have hidx : ((2 ^ 64 - 1) * clipRamp.channels % 2 ^ 64 + 5) % 2 ^ 64 = 4 := by
    rw [show clipRamp.channels = 1 from rfl]
    decide
  have hget : clipRamp.samples.get? 4 = some (F.fin 1) :=
    get?_replicate (F.fin 1) 2000 4 (by norm_num)
  have hw1 : wsub64 2000 (2000 * 1 / 1000) = 1998 := by decide
  have hw2 : wsub64 2000 (2 ^ 64 - 1) = 2001 := by decide
  have hff : clipRamp.fadeFactor (2 ^ 64 - 1) = F.fin (2001 / 2) := by
    unfold Clip.fadeFactor
    rw [hfc, show clipRamp.channels = 1 from rfl]
    rw [if_neg (by decide), hw1, if_pos (by decide), hw2]
    show F.div (F.fin ((2001 : Nat) : ℚ)) (F.fin ((2000 * 1 / 1000 : Nat) : ℚ)) = _
    rw [F.div_fin _ _ (by norm_num)]
    norm_num [F.fin.injEq]
  unfold Clip.sample
  rw [hidx, hget, hff]
  show F.mul (F.fin 1) (F.fin (2001 / 2)) = F.fin (2001 / 2)
  rw [F.mul_fin, one_mul]

/-- C3, counterexample.  The claim says a 1-millisecond fade is applied at
the start of the buffer; at 48 kHz that window is 48 frames, so the value
at frame 10 would have to ramp (be `10/48` of the stored `1.0`).  The code
window is `frame_count * channels / 1000` samples — for `clipMsFade`
(500 stereo frames) a single frame — so frame 10 is returned entirely
unfaded. -/
theorem sample_unfaded_inside_millisecond_window :
    clipMsFade.sampleRate / 1000 = 48 ∧ (10 : Nat) < 48 ∧
    clipMsFade.sample 10 0 = F.fin 1 ∧ F.fin ((10 : ℚ) / 48) ≠ F.fin 1 := by
  have hfc : clipMsFade.frameCount = 500 := by
    simp [clipMsFade, Clip.frameCount]
  have hw : wsub64 500 1 = 499 := by decide
  have hff : clipMsFade.fadeFactor 10 = F.fin 1 := by
    unfold Clip.fadeFactor
    rw [hfc, show clipMsFade.channels = 2 from rfl]
    norm_num [hw]
  have hget : clipMsFade.samples.get? (10 * clipMsFade.channels + 0) = some (F.fin 1) :=
    get?_replicate (F.fin 1) 1000 20 (by norm_num)
  refine ⟨rfl, by norm_num, ?_, by simp [F.fin.injEq]; norm_num⟩
  rw [sample_eq_of_no_wrap clipMsFade 10 0
    (by rw [show clipMsFade.channels = 2 from rfl]; decide)]
  rw [hget, hff]
  show F.mul (F.fin 1) (F.fin 1) = F.fin 1
  rw [F.mul_fin, one_mul]

/-- C3, amended: on read (storage is never mutated — `sample` is a pure
function of the clip) a linear fade of `frame_count * channels / 1000`
frames (0.1% of the stored sample count, not 1 ms) is applied at both
ends: when the window is non-empty the value at frame 0 is exactly 0, a
frame inside the start window is the stored value scaled by
`index / fade_samples`, and a frame past `frame_count - fade_samples` is
scaled by `(frame_count - index) / fade_samples`.  The buffer length is
below `2^64` (the `usize` bound every real buffer satisfies), which keeps
the flattened read index of each hypothesis away from the `usize` wrap. -/
theorem sample_fade_ramp (c : Clip) (hfs : 0 < c.fadeSamples)
    (hlen : c.samples.length < 2 ^ 64) :
    (∀ channel q, c.samples.get? channel = some (F.fin q) →
      c.sample 0 channel = F.fin 0) ∧
    (∀ index channel q, index < c.fadeSamples →
      c.samples.get? (index * c.channels + channel) = some (F.fin q) →
      c.sample index channel = F.fin (q * ((index : ℚ) / (c.fadeSamples : ℚ)))) ∧
    (∀ index channel q, c.fadeSamples ≤ index →
      c.frameCount - c.fadeSamples < index → index ≤ c.frameCount →
      c.fadeSamples ≤ c.frameCount → c.frameCount < 2 ^ 64 →
      c.samples.get? (index * c.channels + channel) = some (F.fin q) →
      c.sample index channel =
        F.fin (q * (((c.frameCount - index : Nat) : ℚ) / (c.fadeSamples : ℚ)))) := by
  have hfsdef : c.fadeSamples = c.frameCount * c.channels / 1000 := rfl
  have hfsQ : ((c.fadeSamples : Nat) : ℚ) ≠ 0 := by exact_mod_cast hfs.ne'
  refine ⟨?_, ?_, ?_⟩
  · intro channel q hget
    have hbound := lt_length_of_get? hget
    rw [sample_eq_of_no_wrap c 0 channel (by omega)]
    rw [show 0 * c.channels + channel = channel by ring, hget]
    unfold Clip.fadeFactor
    rw [if_pos (by omega : 0 < c.frameCount * c.channels / 1000)]
    show F.mul (F.fin q) (F.div (F.fin 0) (F.fin (c.frameCount * c.channels / 1000 : Nat))) = _
    rw [F.div_fin _ _ (by rw [← hfsdef]; exact hfsQ), zero_div, F.mul_fin, mul_zero]
  · intro index channel q hidx hget
    have hbound := lt_length_of_get? hget
    rw [sample_eq_of_no_wrap c index channel (by omega)]
    rw [hget]
    unfold Clip.fadeFactor
    rw [if_pos (show index < c.frameCount * c.channels / 1000 from hfsdef ▸ hidx)]
    show F.mul (F.fin q)
      (F.div (F.fin index) (F.fin (c.frameCount * c.channels / 1000 : Nat))) = _
    rw [F.div_fin _ _ (by rw [← hfsdef]; exact hfsQ), F.mul_fin, hfsdef]
  · intro index channel q hge hpast hle hwf hfc hget
    have hbound := lt_length_of_get? hget
    rw [sample_eq_of_no_wrap c index channel (by omega)]
    rw [hget]
    unfold Clip.fadeFactor
    rw [if_neg (show ¬ index < c.frameCount * c.channels / 1000 by omega)]
    rw [wsub64_of_le (hfsdef ▸ hwf) hfc]
    rw [if_pos (show c.frameCount - c.frameCount * c.channels / 1000 < index by omega)]
    rw [wsub64_of_le hle hfc]
    show F.mul (F.fin q)
      (F.div (F.fin (c.frameCount - index : Nat))
        (F.fin (c.frameCount * c.channels / 1000 : Nat))) = _
    rw [F.div_fin _ _ (by rw [← hfsdef]; exact hfsQ), F.mul_fin, hfsdef]

/-- C3 witness: in `clipRamp` (fade window 2 frames, all stored samples
`1.0`) the value at frame 1 is the stored value scaled by `1/2`. -/
theorem sample_fade_ramp_witness :
    0 < clipRamp.fadeSamples ∧
    clipRamp.sample 1 0 = F.fin (1 * (((1 : Nat) : ℚ) / (clipRamp.fadeSamples : ℚ))) :=
  have hlen : clipRamp.samples.length = 2000 := by
    rw [show clipRamp.samples = List.replicate 2000 (F.fin 1) from rfl,
      List.length_replicate]
  have hfs : clipRamp.fadeSamples = 2 := by
    unfold Clip.fadeSamples Clip.frameCount
    rw [hlen, show clipRamp.channels = 1 from rfl]
  ⟨by rw [hfs]; norm_num,
   (sample_fade_ramp clipRamp (by rw [hfs]; norm_num)
       (by rw [hlen]; norm_num)).2.1 1 0 1 (by rw [hfs]; norm_num)
     (get?_replicate (F.fin 1) 2000 1 (by norm_num))⟩

/-- C4, counterexample.  `Clip::add` on clips with different channel
counts does not return a `FormatMismatch` error value — no such error type
exists in the repository and `add`'s return type is `Clip`, not a result;
the `assert_eq!(self.channels, other.channels)` panics, modelled as
`none`. -/
theorem add_mismatched_channels_panics :
    clipMono.channels ≠ clipStereo.channels ∧
    clipMono.add clipStereo (F.fin 1) = none := by
  with_unfolding_all decide

/-- C4, amended: with equal channel counts and equal lengths, `add`
succeeds and returns a clip of the same length whose samples are
`a[i] + b[i] * gain`; with differing channel counts it panics on an
assertion rather than returning a `FormatMismatch` error. -/
theorem add_equal_lengths (a b : Clip) (g : F)
    (hch : a.channels = b.channels) (hlen : a.samples.length = b.samples.length) :
    ∃ r, a.add b g = some r ∧ r.channels = a.channels ∧
      r.sampleRate = a.sampleRate ∧ r.samples.length = a.samples.length ∧
      ∀ i x y, a.samples.get? i = some x → b.samples.get? i = some y →
        r.samples.get? i = some (F.add x (F.mul y g)) := by
  unfold Clip.add
  rw [if_pos hch]
  refine ⟨_, rfl, rfl, rfl, ?_, ?_⟩
  · simp [List.length_zipWith, hlen]
  · intro i x y hx hy
    exact get?_zipWith _ a.samples b.samples i x y hx hy

/-- C4 witness: adding the two-sample clips `clipAddA` and `clipAddB`
with gain 2 succeeds with a two-sample result. -/
theorem add_equal_lengths_witness :
    ∃ r, clipAddA.add clipAddB (F.fin 2) = some r ∧ r.channels = clipAddA.channels ∧
      r.sampleRate = clipAddA.sampleRate ∧ r.samples.length = clipAddA.samples.length ∧
      ∀ i x y, clipAddA.samples.get? i = some x → clipAddB.samples.get? i = some y →
        r.samples.get? i = some (F.add x (F.mul y (F.fin 2))) :=
  add_equal_lengths clipAddA clipAddB (F.fin 2) rfl rfl

/-- Length of the interleaved buffer produced by `resample`. -/
theorem resample_samples_length (c : Clip) (r : Nat) :
    (c.resample r).samples.length =
      c.frameCount * r % 2 ^ 64 / c.sampleRate * c.channels := by
  unfold Clip.resample
  rw [flatMap_length_const _ _ c.channels fun a _ => by simp, List.length_range]

/-- C5: `resample` preserves the channel count and produces
`floor(frameCount * target / source)` frames, and resampling twice
composes the two floors.  The hypotheses record that the `u64` products do
not wrap and that the divisors are the non-zero sample rates (a zero
source rate panics in the source). -/
theorem resample_frame_counts (c : Clip) (r s : Nat)
    (hch : 0 < c.channels) (horig : 0 < c.sampleRate) (hr : 0 < r)
    (h1 : c.frameCount * r < 2 ^ 64)
    (h2 : c.frameCount * r / c.sampleRate * s < 2 ^ 64) :
    (c.resample r).channels = c.channels ∧
    (c.resample r).frameCount = c.frameCount * r / c.sampleRate ∧
    ((c.resample r).resample s).channels = c.channels ∧
    ((c.resample r).resample s).frameCount =
      c.frameCount * r / c.sampleRate * s / r := by
  have hfc1 : (c.resample r).frameCount = c.frameCount * r / c.sampleRate := by
    show (c.resample r).samples.length / (c.resample r).channels = _
    rw [show (c.resample r).channels = c.channels from rfl, resample_samples_length,
      Nat.mod_eq_of_lt h1, Nat.mul_div_cancel _ hch]
  refine ⟨rfl, hfc1, rfl, ?_⟩
  show ((c.resample r).resample s).samples.length / ((c.resample r).resample s).channels = _
  rw [show ((c.resample r).resample s).channels = c.channels from rfl,
    resample_samples_length]
  rw [show (c.resample r).channels = c.channels from rfl,
    show (c.resample r).sampleRate = r from rfl, hfc1,
    Nat.mod_eq_of_lt h2, Nat.mul_div_cancel _ hch]

/-- C5 witness: the 8-frame clip `clipEight` at 4 Hz resampled to 6 Hz has
`8 * 6 / 4 = 12` frames, and resampling that to 2 Hz has `12 * 2 / 6 = 4`
frames. -/
theorem resample_frame_counts_witness :
    (clipEight.resample 6).frameCount = clipEight.frameCount * 6 / clipEight.sampleRate ∧
    ((clipEight.resample 6).resample 2).frameCount =
      clipEight.frameCount * 6 / clipEight.sampleRate * 2 / 6 :=
  ⟨(resample_frame_counts clipEight 6 2 (by decide) (by decide) (by decide)
      (by decide) (by decide)).2.1,
   (resample_frame_counts clipEight 6 2 (by decide) (by decide) (by decide)
      (by decide) (by decide)).2.2.2⟩

/-- C6, counterexample.  In the state `engineNearBeat` the beat position
is `9.9995`: its fractional part `0.9995` exceeds `0.999`, i.e. the state
is within `0.001` beat of beat 10, just before it — yet `is_on_beat()`
returns `false`, because the code only tests `beat % 1.0 < 0.001`. -/
theorem is_on_beat_false_just_before_beat :
    F.fmod engineNearBeat.beat (F.fin 1) = F.fin (1999 / 2000) ∧
    (999 : ℚ) / 1000 < 1999 / 2000 ∧
    engineNearBeat.isOnBeat = false := by
  with_unfolding_all decide

/-- C6, amended: for a non-zero sample rate, `is_on_beat()` is `true`
exactly when the fractional part of the beat position is `< 0.001` — i.e.
just *after* an integer beat; it is `false` just before one. -/
theorem is_on_beat_iff_fract_small (e : Engine) (hsr : 0 < e.sampleRate) :
    e.isOnBeat = true ↔ beatQ e - ⌊beatQ e⌋ < 1 / 1000 := by
  have hsrQ : ((e.sampleRate : Nat) : ℚ) ≠ 0 := by exact_mod_cast hsr.ne'
  have hbeat : e.beat = F.fin (beatQ e) := by
    unfold Engine.beat Engine.seconds beatQ
    show F.div (F.mul (F.div (F.fin e.sample) (F.fin e.sampleRate)) (F.fin e.bpm))
      (F.fin 60) = _
    rw [F.div_fin _ _ hsrQ, F.mul_fin, F.div_fin _ _ (by norm_num)]
  have hq0 : 0 ≤ beatQ e := by
    unfold beatQ
    positivity
  unfold Engine.isOnBeat
  rw [hbeat, F.fmod_fin _ _ (by norm_num), div_one, one_mul,
    ratTrunc_of_nonneg hq0, F.lt_fin]
  simp

/-- C6 witness: at sample position 0 the engine is on a beat. -/
theorem is_on_beat_iff_fract_small_witness :
    (engineAt 120 16 48000 0).isOnBeat = true :=
  (is_on_beat_iff_fract_small (engineAt 120 16 48000 0) (by decide)).mpr
    (by norm_num [beatQ, engineAt])

/-- The prefill loop never hits a full buffer while the queued data plus
the pushes fit under the capacity, and it queues exactly the pushed
zeros. -/
theorem pushZeros_ok :
    ∀ (n : Nat) (rb : HeapRb), rb.data.length + n ≤ rb.cap →
      pushZeros n rb =
        some { cap := rb.cap, data := rb.data ++ List.replicate n (F.fin 0) } := by
  intro n
  induction n with
  | zero =>
    intro rb _
    simp [pushZeros]
  | succ m ih =>
    intro rb h
    have hp : rb.push (F.fin 0) = some { cap := rb.cap, data := rb.data ++ [F.fin 0] } := by
      unfold HeapRb.push
      rw [if_pos (by omega)]
    unfold pushZeros
    simp only [hp]
    rw [ih { cap := rb.cap, data := rb.data ++ [F.fin 0] } (by simp; omega)]
    simp [List.replicate_succ, List.append_assoc]

/-- C7, counterexample.  A launch with 2 input channels at 48 kHz and the
default 15 ms delay pre-fills `2 * 48000 * 15 / 1000 = 1440` samples, but
the ring buffer is *created* with capacity `2880 = 2 × 1440`
(`HeapRb::new(buffer_size as usize * 2)`), not with the claimed size
`c * sr * d / 1000`. -/
theorem ring_capacity_twice_prefill_size :
    settingsLaunchable.launchStream = .ok streamsLaunched ∧
    streamsLaunched.prefillCount = 2 * 48000 * 15 / 1000 ∧
    streamsLaunched.ringCapacity = 2880 ∧ (2880 : Nat) ≠ 2 * 48000 * 15 / 1000 := by
  refine ⟨rfl, rfl, rfl, by norm_num⟩

/-- C7, amended: every successful launch computes the prefill count
`c * sr * delay / 1000`, creates the ring buffer with twice that capacity,
and pushes exactly `prefillCount` zeros into it, all of which succeed and
sit at the front of the queue — so the first `delay` milliseconds of
output are fed from silence before any live input. -/
theorem monitor_prefill_half_capacity (s : AudioSettings) (o : StreamsOk)
    (h : s.launchStream = .ok o) :
    o.prefillCount = monitorBufferSize o.inputChannels o.sampleRate s.delay ∧
    o.ringCapacity = o.prefillCount * 2 ∧
    pushZeros o.prefillCount { cap := o.ringCapacity, data := [] } =
      some { cap := o.ringCapacity, data := List.replicate o.prefillCount (F.fin 0) } ∧
    ∀ k, k < o.prefillCount →
      (List.replicate o.prefillCount (F.fin 0)).get? k = some (F.fin 0) := by
  cases hin : s.getInputDevice with
  | none => simp [AudioSettings.launchStream, hin] at h
  | some din =>
    cases hout : s.getOutputDevice with
    | none => simp [AudioSettings.launchStream, hin, hout] at h
    | some dout =>
      cases hsr : s.getSampleRate with
      | none => simp [AudioSettings.launchStream, hin, hout, hsr] at h
      | some rate =>
        by_cases hch : din.defaultConfigChannels = dout.defaultConfigChannels
        · simp only [AudioSettings.launchStream, hin, hout, hsr, hch, ne_eq,
            not_true_eq_false, if_false, ite_false, reduceIte] at h
          injection h with h
          subst h
          refine ⟨rfl, rfl, ?_, fun k hk => get?_replicate _ _ k hk⟩
          have hpz := pushZeros_ok (monitorBufferSize dout.defaultConfigChannels rate s.delay)
            { cap := monitorBufferSize dout.defaultConfigChannels rate s.delay * 2
              data := [] } (by simp; omega)
          simpa using hpz
        · simp [AudioSettings.launchStream, hin, hout, hsr, hch] at h

/-- C7 witness: the concrete launch of `settingsLaunchable` has capacity
twice its prefill, and its 1440 zero-pushes all succeed. -/
theorem monitor_prefill_half_capacity_witness :
    streamsLaunched.ringCapacity = streamsLaunched.prefillCount * 2 ∧
    pushZeros streamsLaunched.prefillCount
        { cap := streamsLaunched.ringCapacity, data := [] } =
      some { cap := streamsLaunched.ringCapacity
             data := List.replicate streamsLaunched.prefillCount (F.fin 0) } :=
  ⟨(monitor_prefill_half_capacity settingsLaunchable streamsLaunched rfl).2.1,
   (monitor_prefill_half_capacity settingsLaunchable streamsLaunched rfl).2.2.1⟩

/-- C8.  The source converts each cpal config to the half-open range
`min_sample_rate..max_sample_rate`, dropping the (inclusive) maximum.  For
an input device advertising exactly {44100, 48000} and an output device
advertising exactly {48000, 96000} — each rate a config with
`min = max`, so every half-open range is empty — the negotiated list is
`[]` and the default selection is `none`, where the spec's inclusive
intersection yields `[48000]` with 48000 selected. -/
theorem negotiation_drops_inclusive_max :
    sampleRatesFn (some devIn4448) (some devOut4896) = [] ∧
    defaultSampleRateIndex (sampleRatesFn (some devIn4448) (some devOut4896)) = none ∧
    specNegotiatedRates devIn4448 devOut4896 = [48000] ∧
    defaultSampleRateIndex (specNegotiatedRates devIn4448 devOut4896) = some 0 ∧
    (specNegotiatedRates devIn4448 devOut4896).get? 0 = some 48000 := by
  decide

/-- C9, counterexample.  `settingsPreRotate` has its buffer-size list
computed for the pair (`devAnyBuf`, `devAnyBuf`) — the full ladder.
Rotating the input device to `devSmallBuf` recomputes the sample-rate
list but leaves the buffer-size list at the full ladder, although the new
device pair supports only `[256, 512]`. -/
theorem rotate_input_keeps_stale_buffer_sizes :
    (settingsPreRotate.rotateInputDevice 1).inputDevice = some 1 ∧
    (settingsPreRotate.rotateInputDevice 1).bufferSizes =
      bufferSizesFn (some devAnyBuf) (some devAnyBuf) ∧
    bufferSizesFn (settingsPreRotate.rotateInputDevice 1).getInputDevice
        (settingsPreRotate.rotateInputDevice 1).getOutputDevice = [256, 512] ∧
    (settingsPreRotate.rotateInputDevice 1).bufferSizes ≠
      bufferSizesFn (settingsPreRotate.rotateInputDevice 1).getInputDevice
        (settingsPreRotate.rotateInputDevice 1).getOutputDevice := by
  decide

/-- C9, amended: rotating the input or output device recomputes the
sample-rate list (from the new selection) and its default selection, but
leaves the buffer-size list and its selection exactly as they were; the
buffer-size lists are recomputed only by the `query_devices` /
`query_default_devices` path. -/
theorem rotate_device_recomputes_only_rates (s : AudioSettings) (offset : Int) :
    ((s.rotateInputDevice offset).sampleRates =
        sampleRatesFn (s.rotateInputDevice offset).getInputDevice
          (s.rotateInputDevice offset).getOutputDevice ∧
      (s.rotateInputDevice offset).sampleRate =
        defaultSampleRateIndex (s.rotateInputDevice offset).sampleRates ∧
      (s.rotateInputDevice offset).bufferSizes = s.bufferSizes ∧
      (s.rotateInputDevice offset).bufferSize = s.bufferSize) ∧
    ((s.rotateOutputDevice offset).sampleRates =
        sampleRatesFn (s.rotateOutputDevice offset).getInputDevice
          (s.rotateOutputDevice offset).getOutputDevice ∧
      (s.rotateOutputDevice offset).sampleRate =
        defaultSampleRateIndex (s.rotateOutputDevice offset).sampleRates ∧
      (s.rotateOutputDevice offset).bufferSizes = s.bufferSizes ∧
      (s.rotateOutputDevice offset).bufferSize = s.bufferSize) := by
  constructor
  · unfold AudioSettings.rotateInputDevice
    rcases h : s.inputDevice with _ | i <;>
      simp [h, AudioSettings.querySampleRates, AudioSettings.queryDefaultSampleRate,
        AudioSettings.getInputDevice, AudioSettings.getOutputDevice] <;>
      split <;>
      simp [AudioSettings.querySampleRates, AudioSettings.queryDefaultSampleRate,
        AudioSettings.getInputDevice, AudioSettings.getOutputDevice]
  · unfold AudioSettings.rotateOutputDevice
    rcases h : s.outputDevice with _ | i <;>
      simp [h, AudioSettings.querySampleRates, AudioSettings.queryDefaultSampleRate,
        AudioSettings.getInputDevice, AudioSettings.getOutputDevice] <;>
      split <;>
      simp [AudioSettings.querySampleRates, AudioSettings.queryDefaultSampleRate,
        AudioSettings.getInputDevice, AudioSettings.getOutputDevice]

/-- C10: a failing `launch_stream` leaves both previously held streams of
the `Audio` state untouched and stores the failure as the current error
(the model is total — there is no termination path); the error is
`NoInputDevice` / `NoOutputDevice` / `NoSampleRate` when the respective
selection is absent and `ChannelMismatch` when the two devices' default
channel counts differ. -/
theorem launch_failure_handling (a : Audio) :
    (∀ e, a.settings.launchStream = .error e →
      a.launchStreams.inputStream = a.inputStream ∧
      a.launchStreams.outputStream = a.outputStream ∧
      a.launchStreams.error = some e) ∧
    (a.settings.inputDevice = none →
      a.settings.launchStream = .error .noInputDevice) ∧
    (∀ din, a.settings.getInputDevice = some din →
      a.settings.outputDevice = none →
      a.settings.launchStream = .error .noOutputDevice) ∧
    (∀ din dout, a.settings.getInputDevice = some din →
      a.settings.getOutputDevice = some dout → a.settings.sampleRate = none →
      a.settings.launchStream = .error .noSampleRate) ∧
    (∀ din dout rate, a.settings.getInputDevice = some din →
      a.settings.getOutputDevice = some dout →
      a.settings.getSampleRate = some rate →
      din.defaultConfigChannels ≠ dout.defaultConfigChannels →
      a.settings.launchStream = .error .channelMismatch) := by
  refine ⟨?_, ?_, ?_, ?_, ?_⟩
  · intro e he
    unfold Audio.launchStreams
    rw [he]
    exact ⟨rfl, rfl, rfl⟩
  · intro h
    have h1 : a.settings.getInputDevice = none := by
      unfold AudioSettings.getInputDevice
      rw [h]
      rfl
    unfold AudioSettings.launchStream
    rw [h1]
  · intro din hdin hout
    have h1 : a.settings.getOutputDevice = none := by
      unfold AudioSettings.getOutputDevice
      rw [hout]
      rfl
    unfold AudioSettings.launchStream
    rw [hdin, h1]
  · intro din dout hdin hdout hrate
    have h1 : a.settings.getSampleRate = none := by
      unfold AudioSettings.getSampleRate
      rw [hrate]
      rfl
    unfold AudioSettings.launchStream
    rw [hdin, hdout, h1]
  · intro din dout rate hdin hdout hrate hch
    simp only [AudioSettings.launchStream, hdin, hdout, hrate]
    rw [if_pos hch]

/-- C10 witness: relaunching `audioNoInput` (no input selection, live
streams held) fails with `NoInputDevice`, keeps both streams, and stores
the error. -/
theorem launch_failure_handling_witness :
    audioNoInput.launchStreams.inputStream = some streamsLaunched ∧
    audioNoInput.launchStreams.outputStream = some streamsLaunched ∧
    audioNoInput.launchStreams.error = some LaunchError.noInputDevice := by
  have h := launch_failure_handling audioNoInput
  have herr : audioNoInput.settings.launchStream = .error .noInputDevice := h.2.1 rfl
  have h1 := h.1 _ herr
  exact ⟨h1.1, h1.2.1, h1.2.2⟩

/-- `should_loop()` over the rational model: with a non-zero sample rate
and `bpm` dividing `beats * 60 * sample_rate`, it holds exactly when the
sample position has reached `beats * 60 * sr / bpm`. -/
theorem shouldLoop_iff (bpm beats sr smp : Nat) (hbpm : 0 < bpm) (hsr : 0 < sr)
    (hdvd : bpm ∣ beats * 60 * sr) :
    ((engineAt bpm beats sr smp).shouldLoop = true ↔ loopFrames bpm beats sr ≤ smp) := by
  have hsrQ : ((sr : Nat) : ℚ) ≠ 0 := by exact_mod_cast hsr.ne'
  have hbeat : (engineAt bpm beats sr smp).beat
      = F.fin ((smp : ℚ) / sr * bpm / 60) := by
    unfold Engine.beat Engine.seconds
    show F.div (F.mul (F.div (F.fin smp) (F.fin sr)) (F.fin bpm)) (F.fin 60) = _
    rw [F.div_fin _ _ hsrQ, F.mul_fin, F.div_fin _ _ (by norm_num)]
  unfold Engine.shouldLoop
  rw [hbeat]
  show F.le (F.fin ((beats : Nat) : ℚ)) _ = true ↔ _
  rw [F.le_fin]
  simp only [decide_eq_true_eq]
  have h60 : (0 : ℚ) < 60 := by norm_num
  have hsrQ2 : (0 : ℚ) < (sr : ℚ) := by exact_mod_cast hsr
  rw [le_div_iff h60, div_mul_eq_mul_div, le_div_iff hsrQ2]
  have hnat : beats * 60 * sr ≤ smp * bpm ↔ loopFrames bpm beats sr ≤ smp := by
    obtain ⟨N, hN⟩ := hdvd
    unfold loopFrames
    rw [hN, Nat.mul_div_cancel_left N hbpm]
    constructor
    · intro hle
      exact Nat.le_of_mul_le_mul_left (by rwa [Nat.mul_comm smp bpm] at hle) hbpm
    · intro hle
      calc bpm * N ≤ bpm * smp := Nat.mul_le_mul_left bpm hle
        _ = smp * bpm := Nat.mul_comm bpm smp
  rw [← hnat]
  constructor
  · intro hq
    exact_mod_cast hq
  · intro hn
    exact_mod_cast hn

/-- Contrapositive form of `shouldLoop_iff`. -/
theorem shouldLoop_false_iff (bpm beats sr smp : Nat) (hbpm : 0 < bpm) (hsr : 0 < sr)
    (hdvd : bpm ∣ beats * 60 * sr) :
    ((engineAt bpm beats sr smp).shouldLoop = false ↔
      smp < loopFrames bpm beats sr) := by
  rw [← Bool.not_eq_true, shouldLoop_iff bpm beats sr smp hbpm hsr hdvd]
  omega


/-- Case split of one output-callback iteration on whether the channel
counter wraps (a full frame has elapsed) and on `should_loop()`. -/
theorem outStep_eq (bpm beats sr c : Nat) (st : RenderState) :
    outStep bpm beats sr c st =
      if st.channel + 1 = c then
        (if (engineAt bpm beats sr (st.sample + 1)).shouldLoop then
          { sample := 0, channel := 0, recLen := 0, loops := st.loops + 1 }
        else
          { sample := st.sample + 1, channel := 0, recLen := st.recLen + 1
            loops := st.loops })
      else
        (if (engineAt bpm beats sr st.sample).shouldLoop then
          { sample := 0, channel := st.channel + 1, recLen := 0
            loops := st.loops + 1 }
        else
          { sample := st.sample, channel := st.channel + 1
            recLen := st.recLen + 1, loops := st.loops }) := by
  unfold outStep
  by_cases h : st.channel + 1 = c <;> simp [h]

/-- Trajectory of the render-loop clock: before the loop point the sample
position advances by one every `c` output samples and no reset occurs; at
output sample `c * loopFrames` the position wraps to `0`, the recording is
cleared and the reset has fired exactly once. -/
theorem simulate_traj (bpm beats sr c : Nat) (hbpm : 0 < bpm) (hsr : 0 < sr)
    (hc : 0 < c) (hdvd : bpm ∣ beats * 60 * sr) (hN : 0 < loopFrames bpm beats sr) :
    ∀ t, t ≤ c * loopFrames bpm beats sr →
      simulate bpm beats sr c t =
        if t = c * loopFrames bpm beats sr then
          { sample := 0, channel := 0, recLen := 0, loops := 1 }
        else
          { sample := t / c, channel := t % c, recLen := t, loops := 0 } := by
  intro t
  induction t with
  | zero =>
    intro _
    rw [if_neg (Nat.mul_pos hc hN).ne]
    simp [simulate]
  | succ t ih =>
    intro ht
    have htlt : t < c * loopFrames bpm beats sr := by omega
    have ihe := ih (le_of_lt htlt)
    rw [if_neg htlt.ne] at ihe
    have hdm : c * (t / c) + t % c = t := Nat.div_add_mod t c
    have hmlt : t % c < c := Nat.mod_lt t hc
    show outStep bpm beats sr c (simulate bpm beats sr c t) = _
    rw [ihe, outStep_eq]
    dsimp only
    by_cases hwrap : t % c + 1 = c
    · have hsplit : t + 1 = c * (t / c + 1) := by
        rw [Nat.mul_add, Nat.mul_one]
        omega
      have hdiv1 : (t + 1) / c = t / c + 1 := by
        rw [hsplit, Nat.mul_div_cancel_left _ hc]
      have hmod1 : (t + 1) % c = 0 := by
        rw [hsplit]
        exact Nat.mul_mod_right c _
      rw [if_pos hwrap]
      by_cases hend : t + 1 = c * loopFrames bpm beats sr
      · have hdivN : t / c + 1 = loopFrames bpm beats sr := by
          rw [← hdiv1, hend, Nat.mul_div_cancel_left _ hc]
        have hsl : (engineAt bpm beats sr (t / c + 1)).shouldLoop = true := by
          rw [shouldLoop_iff bpm beats sr _ hbpm hsr hdvd, hdivN]
        rw [hsl, if_pos rfl, if_pos hend]
      · have hlt2 : t / c + 1 < loopFrames bpm beats sr := by
          rw [← hdiv1, Nat.div_lt_iff_lt_mul hc,
            Nat.mul_comm (loopFrames bpm beats sr) c]
          omega
        have hsl : (engineAt bpm beats sr (t / c + 1)).shouldLoop = false := by
          rw [shouldLoop_false_iff bpm beats sr _ hbpm hsr hdvd]
          exact hlt2
        rw [hsl, if_neg Bool.false_ne_true, if_neg hend, hdiv1, hmod1]
    · have hlt1 : t % c + 1 < c := by omega
      have hsplit : t + 1 = c * (t / c) + (t % c + 1) := by omega
      have hdiv1 : (t + 1) / c = t / c := by
        rw [hsplit, Nat.mul_add_div hc, Nat.div_eq_of_lt hlt1, Nat.add_zero]
      have hmod1 : (t + 1) % c = t % c + 1 := by
        rw [hsplit, Nat.mul_add_mod, Nat.mod_eq_of_lt hlt1]
      have hdlt : t / c < loopFrames bpm beats sr := by
        rw [Nat.div_lt_iff_lt_mul hc, Nat.mul_comm (loopFrames bpm beats sr) c]
        exact htlt
      have hsl : (engineAt bpm beats sr (t / c)).shouldLoop = false := by
        rw [shouldLoop_false_iff bpm beats sr _ hbpm hsr hdvd]
        exact hdlt
      have hend : t + 1 ≠ c * loopFrames bpm beats sr := by
        intro hcontra
        have h0 : (t + 1) % c = 0 := by
          rw [hcontra]
          exact Nat.mul_mod_right c _
        omega
      rw [if_neg hwrap, hsl, if_neg Bool.false_ne_true, if_neg hend, hdiv1, hmod1]

/-- C1: with positive bpm, beats, sample rate and channel count, and
`bpm` dividing `beats * 60 * sample_rate` (so that the loop length in
frames is the whole number `beats * 60 / bpm * sample_rate`), the render
loop starting from sample position 0 advances the position once per
output frame, `should_loop()` stays false at every position before
`loopFrames` and becomes true exactly at `loopFrames`; at that frame the
position wraps to 0 — exactly once, with no frame skipped — and the
position just after the reset, 0, is strictly below the loop length. -/
theorem render_loop_wraps_once (bpm beats sr c : Nat)
    (hbpm : 0 < bpm) (hbeats : 0 < beats) (hsr : 0 < sr) (hc : 0 < c)
    (hdvd : bpm ∣ beats * 60 * sr) :
    0 < loopFrames bpm beats sr ∧
    (∀ t, t < c * loopFrames bpm beats sr →
      simulate bpm beats sr c t =
        { sample := t / c, channel := t % c, recLen := t, loops := 0 } ∧
      (engineAt bpm beats sr (simulate bpm beats sr c t).sample).shouldLoop = false) ∧
    simulate bpm beats sr c (c * loopFrames bpm beats sr) =
      { sample := 0, channel := 0, recLen := 0, loops := 1 } ∧
    (engineAt bpm beats sr (loopFrames bpm beats sr)).shouldLoop = true := by
  have hN : 0 < loopFrames bpm beats sr := by
    unfold loopFrames
    exact Nat.div_pos (Nat.le_of_dvd (by positivity) hdvd) hbpm
  refine ⟨hN, ?_, ?_, ?_⟩
  · intro t htlt
    have h1 := simulate_traj bpm beats sr c hbpm hsr hc hdvd hN t (le_of_lt htlt)
    rw [if_neg htlt.ne] at h1
    refine ⟨h1, ?_⟩
    rw [h1]
    rw [shouldLoop_false_iff bpm beats sr _ hbpm hsr hdvd]
    rw [Nat.div_lt_iff_lt_mul hc, Nat.mul_comm (loopFrames bpm beats sr) c]
    exact htlt
  · have h1 := simulate_traj bpm beats sr c hbpm hsr hc hdvd hN
      (c * loopFrames bpm beats sr) le_rfl
    rw [if_pos rfl] at h1
    exact h1
  · exact (shouldLoop_iff bpm beats sr _ hbpm hsr hdvd).mpr le_rfl

/-- C1 witness: bpm 60, 1 beat, sample rate 8 Hz, 2 channels: the loop
length is 8 frames; after 16 output samples the position has wrapped to 0
exactly once, and `should_loop()` holds at position 8. -/
theorem render_loop_wraps_once_witness :
    0 < loopFrames 60 1 8 ∧
    simulate 60 1 8 2 (2 * loopFrames 60 1 8) =
      { sample := 0, channel := 0, recLen := 0, loops := 1 } ∧
    (engineAt 60 1 8 (loopFrames 60 1 8)).shouldLoop = true := by
  have h := render_loop_wraps_once 60 1 8 2 (by decide) (by decide) (by decide)
    (by decide) ⟨8, by norm_num⟩
  exact ⟨h.1, h.2.2.1, h.2.2.2⟩
